import Mathlib

/-!
Verification of the arbiter pipeline core (src/arbiter/__init__.py and
src/arbiter/registry.py): the handler registry, the workflow job pool
(dispatch, wait/poll, result aggregation) and the orchestrator's
merge/notify logic, shallowly embedded as executable Lean functions.
-/

namespace Arbiter

/-- Decidable equality for `Except`, so that concrete runs of the embedded
fallible operations can be checked by `decide`. -/
instance {ε α : Type} [DecidableEq ε] [DecidableEq α] : DecidableEq (Except ε α) :=
  fun x y =>
    match x, y with
    | .ok a, .ok b =>
      if h : a = b then isTrue (by rw [h]) else isFalse (by simp [h])
    | .ok _, .error _ => isFalse (by simp)
    | .error _, .ok _ => isFalse (by simp)
    | .error e, .error f =>
      if h : e = f then isTrue (by rw [h]) else isFalse (by simp [h])

/-- The single-quote character used in the pool's error messages. -/
def squote : String := String.singleton (Char.ofNat 39)

/-- Python's `str.upper()` (ASCII case folding, character by character). -/
def upper (s : String) : String := ⟨s.data.map Char.toUpper⟩

/-! ## Registry (src/arbiter/registry.py)

A `Registry` holds a list of protected required names and an association
list modelling the underlying Python dict (`__registry`).  All mutation
and lookup goes through `.upper()` on the queried name, modelled with
`Arbiter.upper`.  Python exceptions become `Except` errors. -/

/-- The two exception classes a registry operation can raise:
`RegistrationError` (arbiter.exceptions) and Python's built-in `KeyError`. -/
inductive RegErr where
  | registrationError : RegErr
  | keyError : RegErr
deriving DecidableEq

structure Registry (α : Type) where
  required : List String
  registry : List (String × α)
deriving DecidableEq

/-- `Registry.__getitem__`: `return self.__registry[key.upper()]`;
a missing key raises `KeyError`. -/
def Registry.getitem {α : Type} (r : Registry α) (key : String) : Except RegErr α :=
  match r.registry.find? (fun e => e.1 = upper key) with
  | some e => .ok e.2
  | none => .error .keyError

/-- `Registry.__contains__`: `item.upper() in self.__registry`. -/
def Registry.contains {α : Type} (r : Registry α) (item : String) : Bool :=
  (r.registry.find? (fun e => e.1 = upper item)).isSome

/-- `Registry.register`: raises `RegistrationError` when `name.upper()` is
already a key, otherwise stores the reference under `name.upper()`. -/
def Registry.register {α : Type} (r : Registry α) (name : String) (ref : α) :
    Except RegErr (Registry α) :=
  if (r.registry.find? (fun e => e.1 = upper name)).isSome then
    .error .registrationError
  else
    .ok { r with registry := r.registry ++ [(upper name, ref)] }

/-- `Registry.unregister`: `if name.upper() not in self.__required:
del self.__registry[name.upper()] else: raise RegistrationError(...)`.
Python's `del` on an absent key raises `KeyError`. -/
def Registry.unregister {α : Type} (r : Registry α) (name : String) :
    Except RegErr (Registry α) :=
  if r.required.contains (upper name) then
    .error .registrationError
  else if (r.registry.find? (fun e => e.1 = upper name)).isSome then
    .ok { r with registry := r.registry.eraseP (fun e => e.1 = upper name) }
  else
    .error .keyError

/-- The module-level `HANDLERS` registry: system handlers CSV, JSON, EMAIL
(values are the handler class names). -/
def systemHandlers : Registry String :=
  { required := ["CSV", "JSON", "EMAIL"],
    registry := [("CSV", "CsvFile"), ("JSON", "JsonFile"), ("EMAIL", "EmailHandler")] }

/-! ## WorkflowJobPool (src/arbiter/__init__.py) -/

/-- One entry of the configuration's `sources` list: the `resource` name
(the job key) and the `handler` registry key. -/
structure Source where
  resource : String
  handler : String
deriving DecidableEq

/-- `WorkflowJobPool.__init__` process sizing:
`cpus = multiprocessing.cpu_count()*2 if processes is None else processes;
self.processes = len(config[sources]) if 0 < len(config[sources]) < cpus else cpus`. -/
def poolProcesses (numSources : Nat) (cpuCount : Nat) (processes : Option Nat) : Nat :=
  let cpus := match processes with
    | none => cpuCount * 2
    | some p => p
  if 0 < numSources ∧ numSources < cpus then numSources else cpus

/-- `self.timeout = config.get('process_timeout', 60)`. -/
def poolTimeout (processTimeout : Option Nat) : Nat :=
  processTimeout.getD 60

/-- `self.sleep_interval = 10`. -/
def sleepInterval : Nat := 10

/-- Python dict insertion `self.results[name] = job`: a repeated key keeps
its original position (the value is overwritten), a fresh key is appended. -/
def insertJobKey (ks : List String) (name : String) : List String :=
  if ks.contains name then ks else ks ++ [name]

/-- The keys of `self.results` after `WorkflowJobPool.run`'s dispatch loop:
for each source in order, if its handler is in `HANDLERS` a job is submitted
under `s['resource']`; otherwise the source is silently skipped. -/
def dispatchKeys {α : Type} (reg : Registry α) (sources : List Source) : List String :=
  sources.foldl
    (fun ks s => if reg.contains s.handler then insertJobKey ks s.resource else ks) []

/-- Outcome of retrieving one job's `AsyncResult.get()`: a clean value, a
`multiprocessing.context.TimeoutError`, or any other exception. -/
inductive Retrieval (α : Type) where
  | ok : α → Retrieval α
  | timeoutError : Retrieval α
  | fault : String → Retrieval α
deriving DecidableEq

/-- `f"Workflow timeout exceeded for '{k}'"`. -/
def timeoutMsg (k : String) : String :=
  "Workflow timeout exceeded for " ++ squote ++ k ++ squote

/-- `f"Workflow for '{k}' failed"`. -/
def failedMsg (k : String) : String :=
  "Workflow for " ++ squote ++ k ++ squote ++ " failed"

/-- `WorkflowJobPool.get_results`: for every job key, a clean retrieval
appends the result to `results`; a `TimeoutError` appends the timeout
message to `errors`; any other exception appends the failure message
(the detail is logged).  The function is total: no fault escapes. -/
def getResults {α : Type} : List (String × Retrieval α) → List α × List String
  | [] => ([], [])
  | (k, r) :: rest =>
    let p := getResults rest
    match r with
    | .ok v => (v :: p.1, p.2)
    | .timeoutError => (p.1, timeoutMsg k :: p.2)
    | .fault _ => (p.1, failedMsg k :: p.2)

/-- `WorkflowJobPool.is_complete` at elapsed time `t`: jobs are modelled by
their ready time; an empty job map is complete (`if not self.results:
return True`). -/
def isComplete (jobs : List (String × Nat)) (t : Nat) : Bool :=
  jobs.all (fun j => j.2 ≤ t)

/-- The `wait` polling loop: while not complete and `elapsed < timeout`,
sleep `sleep_interval` seconds and update `elapsed`.  Returns the final
elapsed time and the number of sleeps performed; the fuel argument only
bounds recursion and is chosen large enough in `poolWait`. -/
def waitLoop (jobs : List (String × Nat)) (timeout : Nat) :
    Nat → Nat → Nat × Nat
  | elapsed, 0 => (elapsed, 0)
  | elapsed, fuel + 1 =>
    if isComplete jobs elapsed = true ∨ timeout ≤ elapsed then
      (elapsed, 0)
    else
      let p := waitLoop jobs timeout (elapsed + sleepInterval) fuel
      (p.1, p.2 + 1)

/-- `WorkflowJobPool.wait`: starts at elapsed 0.  Since elapsed grows by
`sleep_interval ≥ 1` per iteration, `timeout + 1` iterations always suffice
to reach the `elapsed ≥ timeout` exit, so the fuel bound is never the
reason the loop stops. -/
def poolWait (jobs : List (String × Nat)) (timeout : Nat) : Nat × Nat :=
  waitLoop jobs timeout 0 (timeout + 1)

/-! ## Orchestrator (Process) -/

/-- `Process.default_worker`: `try: return source.get() except Exception:
return None`.  The fetch either yields records or raises. -/
def defaultWorker {α : Type} (fetched : Except String (List α)) : Option (List α) :=
  match fetched with
  | .ok v => some v
  | .error _ => none

/-- `Process.merge_results`: `data = []; for r in results: data.extend(r)`.
Python's `extend(None)` raises `TypeError`, so each element is an
`Option`; a `None` element aborts the merge with the `TypeError`. -/
def mergeResults {α : Type} : List (Option (List α)) → Except String (List α)
  | [] => .ok []
  | none :: _ => .error "TypeError"
  | some r :: rest => (mergeResults rest).map (fun d => r ++ d)

/-- One entry of a `notifications` list: handler key plus the optional
`on_success` / `on_failure` booleans (absent means `False` via
`n.get(..., False)`). -/
structure NotifyDesc where
  handler : String
  onSuccess : Option Bool
  onFailure : Option Bool
deriving DecidableEq

/-- The firing condition of `Process.notify`:
`(not errors and n.get('on_success', False)) or
(errors and n.get('on_failure', False))`. -/
def fireCond (errors : List String) (n : NotifyDesc) : Bool :=
  (errors.isEmpty && n.onSuccess.getD false) ||
  (!errors.isEmpty && n.onFailure.getD false)

/-- Exceptions `Process.notify` can raise to its caller: the explicit
`UnknownHandlerError` via `raise_error`, or the uncaught `KeyError` from
`HANDLERS[klass]` when the handler is unknown but the firing condition
holds. -/
inductive NotifyErr where
  | unknownHandlerError : String → NotifyErr
  | keyError : String → NotifyErr
deriving DecidableEq

/-- `Process.notify`: for each descriptor, an unknown handler triggers
`raise_error` (raising `UnknownHandlerError` when the flag is set, logging
otherwise); then, when the firing condition holds, the handler is looked
up (`HANDLERS[klass]` — `KeyError` if absent), constructed with the files
and errors, and its `send()` is invoked (send faults are caught and
logged).  Returns the descriptors for which a handler was constructed and
sent, in order. -/
def notify {α : Type} (reg : Registry α) (raiseError : Bool) :
    List NotifyDesc → List String → List String → Except NotifyErr (List NotifyDesc)
  | [], _, _ => .ok []
  | n :: rest, files, errors =>
    if reg.contains n.handler then
      if fireCond errors n then
        (notify reg raiseError rest files errors).map (fun l => n :: l)
      else
        notify reg raiseError rest files errors
    else if raiseError then
      .error (.unknownHandlerError n.handler)
    else if fireCond errors n then
      .error (.keyError n.handler)
    else
      notify reg raiseError rest files errors

/-- The notification control flow of `Process.run`, given the gather-phase
errors, the errors `generate` would return, the collected files and
whether a `notifications` section exists.  Returns whether `generate` ran
and the list of `(files, errors)` argument pairs passed to `notify`, in
call order (`files=None` coerces to `[]`). -/
def processRunCalls (gatherErrors genErrors files : List String)
    (hasNotifSection : Bool) : Bool × List (List String × List String) :=
  if gatherErrors.isEmpty then
    (true,
      (if hasNotifSection then [(files, genErrors)] else []) ++
      (if !genErrors.isEmpty && hasNotifSection then [([], genErrors)] else []))
  else
    (false, if hasNotifSection then [([], gatherErrors)] else [])

/-! ## Helper lemmas -/

theorem getResults_fst {α : Type} (jobs : List (String × Retrieval α)) :
    (getResults jobs).1 = jobs.filterMap (fun j =>
      match j.2 with
      | .ok v => some v
      | .timeoutError => none
      | .fault _ => none) := by
  induction jobs with
  | nil => rfl
  | cons j rest ih =>
    obtain ⟨k, r⟩ := j
    cases r <;> simp [getResults, ih]

theorem getResults_snd {α : Type} (jobs : List (String × Retrieval α)) :
    (getResults jobs).2 = jobs.filterMap (fun j =>
      match j.2 with
      | .ok _ => none
      | .timeoutError => some (timeoutMsg j.1)
      | .fault _ => some (failedMsg j.1)) := by
  induction jobs with
  | nil => rfl
  | cons j rest ih =>
    obtain ⟨k, r⟩ := j
    cases r <;> simp [getResults, ih]

theorem getResults_total_length {α : Type} (jobs : List (String × Retrieval α)) :
    (getResults jobs).1.length + (getResults jobs).2.length = jobs.length := by
  induction jobs with
  | nil => rfl
  | cons j rest ih =>
    obtain ⟨k, r⟩ := j
    cases r <;> simp [getResults] <;> omega

theorem dispatchKeys_all_registered {α : Type} (reg : Registry α) :
    ∀ (sources : List Source) (acc : List String),
      (∀ s ∈ sources, reg.contains s.handler = true) →
      (acc ++ sources.map Source.resource).Nodup →
      sources.foldl
          (fun ks s => if reg.contains s.handler then insertJobKey ks s.resource else ks)
          acc
        = acc ++ sources.map Source.resource := by
  intro sources
  induction sources with
  | nil => intro acc _ _; simp
  | cons s ss ih =>
    intro acc hreg hnd
    have hs : reg.contains s.handler = true := hreg s (by simp)
    have hdisj := (List.nodup_append.mp hnd).2.2
    have hnotmem : s.resource ∉ acc := fun hmem => hdisj hmem (by simp)
    have hcont : acc.contains s.resource = false := by simpa using hnotmem
    have hins : insertJobKey acc s.resource = acc ++ [s.resource] := by
      simp [insertJobKey, hcont, hnotmem]
    have hnd2 : (acc ++ s.resource :: ss.map Source.resource).Nodup := by
      simpa using hnd
    have hnd' : ((acc ++ [s.resource]) ++ ss.map Source.resource).Nodup := by
      rw [List.append_cons] at hnd2
      exact hnd2
    have hss : ∀ t ∈ ss, reg.contains t.handler = true := fun t ht => hreg t (by simp [ht])
    simp only [List.foldl_cons, hs, if_true, hins]
    rw [ih (acc ++ [s.resource]) hss hnd']
    simp

theorem waitLoop_complete_of_lt (jobs : List (String × Nat)) (timeout : Nat) :
    ∀ (fuel elapsed : Nat), timeout ≤ sleepInterval * fuel + elapsed →
      (waitLoop jobs timeout elapsed fuel).1 < timeout →
      isComplete jobs (waitLoop jobs timeout elapsed fuel).1 = true := by
  intro fuel
  induction fuel with
  | zero =>
    intro elapsed hb hlt
    simp only [waitLoop] at hlt ⊢
    exfalso
    simp [sleepInterval] at hb
    omega
  | succ fuel ih =>
    intro elapsed hb hlt
    by_cases hc : isComplete jobs elapsed = true ∨ timeout ≤ elapsed
    · rw [waitLoop, if_pos hc] at hlt ⊢
      rcases hc with h | h
      · exact h
      · exact absurd hlt (by omega)
    · rw [waitLoop, if_neg hc] at hlt ⊢
      exact ih (elapsed + sleepInterval)
        (by simp [sleepInterval] at hb ⊢; omega) hlt

theorem poolWait_complete_of_lt (jobs : List (String × Nat)) (timeout : Nat)
    (h : (poolWait jobs timeout).1 < timeout) :
    isComplete jobs (poolWait jobs timeout).1 = true :=
  waitLoop_complete_of_lt jobs timeout (timeout + 1) 0
    (by simp [sleepInterval]; omega) h

theorem notify_ok_filter {γ : Type} (reg : Registry γ) (raiseError : Bool)
    (descs : List NotifyDesc) (files errors : List String)
    (hreg : ∀ n ∈ descs, reg.contains n.handler = true) :
    notify reg raiseError descs files errors = .ok (descs.filter (fireCond errors)) := by
  induction descs with
  | nil => rfl
  | cons n rest ih =>
    have hn : reg.contains n.handler = true := hreg n (by simp)
    have hrest : ∀ m ∈ rest, reg.contains m.handler = true :=
      fun m hm => hreg m (by simp [hm])
    by_cases hf : fireCond errors n = true
    · simp [notify, hn, hf, ih hrest, List.filter_cons, Except.map]
    · simp [notify, hn, hf, ih hrest, List.filter_cons]

theorem fireCond_empty (n : NotifyDesc) :
    fireCond [] n = n.onSuccess.getD false := by
  simp [fireCond]

theorem fireCond_nonempty (errors : List String) (h : errors ≠ []) (n : NotifyDesc) :
    fireCond errors n = n.onFailure.getD false := by
  cases errors with
  | nil => exact absurd rfl h
  | cons e es => simp [fireCond]

/-! ## Claim theorems -/

/-- C1 (counterexample): a configuration with one source whose handler key
is not in the registry yields zero job records — `run` silently skips the
source — so `get_results` returns 0 outcomes, not N = 1, even though the
timeout is never reached (the empty pool completes at elapsed 0 < 60). -/
theorem pool_outcomes_per_source_cex :
    ¬ ((getResults ((dispatchKeys systemHandlers [Source.mk "alpha" "FTP"]).map
          (fun k => (k, Retrieval.ok ([] : List Nat))))).1.length +
        (getResults ((dispatchKeys systemHandlers [Source.mk "alpha" "FTP"]).map
          (fun k => (k, Retrieval.ok ([] : List Nat))))).2.length
        = [Source.mk "alpha" "FTP"].length)
    ∧ (poolWait ((dispatchKeys systemHandlers [Source.mk "alpha" "FTP"]).map
          (fun k => (k, 0))) 60).1 < 60 := by
  decide

/-- C1 (amended): for a configuration with N sources, all of whose handler
keys resolve in the registry and whose resource names are pairwise
distinct, after `run` completes with a never-reached timeout `get_results`
returns exactly N outcomes in total across the results and errors
sequences, and every job is in a terminal (ready) state. -/
theorem pool_outcomes_per_source {γ α : Type} (reg : Registry γ) (sources : List Source)
    (f : String → Retrieval α) (ready : String → Nat) (timeout : Nat)
    (hreg : ∀ s ∈ sources, reg.contains s.handler = true)
    (hnd : (sources.map Source.resource).Nodup)
    (hto : (poolWait ((dispatchKeys reg sources).map (fun k => (k, ready k))) timeout).1
            < timeout) :
    ((getResults ((dispatchKeys reg sources).map (fun k => (k, f k)))).1.length +
        (getResults ((dispatchKeys reg sources).map (fun k => (k, f k)))).2.length
      = sources.length)
    ∧ isComplete ((dispatchKeys reg sources).map (fun k => (k, ready k)))
        (poolWait ((dispatchKeys reg sources).map (fun k => (k, ready k))) timeout).1
        = true := by
  have hkeys : dispatchKeys reg sources = sources.map Source.resource := by
    have := dispatchKeys_all_registered reg sources [] hreg (by simpa using hnd)
    simpa [dispatchKeys] using this
  constructor
  · rw [getResults_total_length, hkeys]
    simp
  · exact poolWait_complete_of_lt _ timeout hto

/-- C1 (witness). -/
theorem pool_outcomes_per_source_wit :
    ((getResults ((dispatchKeys systemHandlers [Source.mk "alpha" "CSV"]).map
          (fun k => (k, Retrieval.ok ([] : List Nat))))).1.length +
        (getResults ((dispatchKeys systemHandlers [Source.mk "alpha" "CSV"]).map
          (fun k => (k, Retrieval.ok ([] : List Nat))))).2.length
      = [Source.mk "alpha" "CSV"].length)
    ∧ isComplete ((dispatchKeys systemHandlers [Source.mk "alpha" "CSV"]).map
          (fun k => (k, 0)))
        (poolWait ((dispatchKeys systemHandlers [Source.mk "alpha" "CSV"]).map
          (fun k => (k, 0))) 60).1 = true :=
  pool_outcomes_per_source systemHandlers [Source.mk "alpha" "CSV"]
    (fun _ => Retrieval.ok ([] : List Nat)) (fun _ => 0) 60
    (by decide) (by decide) (by decide)

/-- C2: `get_results` never raises: it is a total function on the job map.
A timeout-class retrieval contributes exactly the string
`Workflow timeout exceeded for '<name>'` to the errors sequence, any other
retrieval fault contributes exactly `Workflow for '<name>' failed` (the
detail is only logged), and a clean retrieval appends the job's result to
the results sequence — nothing else is produced. -/
theorem get_results_classification {α : Type} (jobs : List (String × Retrieval α)) :
    (getResults jobs).1 = jobs.filterMap (fun j =>
        match j.2 with
        | .ok v => some v
        | .timeoutError => none
        | .fault _ => none)
    ∧ (getResults jobs).2 = jobs.filterMap (fun j =>
        match j.2 with
        | .ok _ => none
        | .timeoutError => some (timeoutMsg j.1)
        | .fault _ => some (failedMsg j.1)) :=
  ⟨getResults_fst jobs, getResults_snd jobs⟩

/-- C3 (counterexample): a descriptor whose handler key is not registered
but whose firing condition holds (no errors, `on_success` true) makes
`notify` raise the uncaught `KeyError` from `HANDLERS[klass]` instead of
constructing and sending a handler for it. -/
theorem notify_selects_fireable_cex :
    fireCond [] (NotifyDesc.mk "FTP" (some true) none) = true
    ∧ notify systemHandlers false [NotifyDesc.mk "FTP" (some true) none] [] [] =
        .error (.keyError "FTP")
    ∧ ¬ notify systemHandlers false [NotifyDesc.mk "FTP" (some true) none] [] [] =
        .ok [NotifyDesc.mk "FTP" (some true) none] := by
  decide

/-- C3 (amended): for every error list E and every sequence of notification
descriptors all of whose handler keys are registered, `notify` constructs
and sends a handler for exactly the subset of descriptors where
(E empty and `on_success`) or (E non-empty and `on_failure`); the others
are skipped.  Run-level and per-output notifications go through this same
function. -/
theorem notify_selects_fireable {γ : Type} (reg : Registry γ) (raiseError : Bool)
    (descs : List NotifyDesc) (files errors : List String)
    (hreg : ∀ n ∈ descs, reg.contains n.handler = true) :
    notify reg raiseError descs files errors = .ok (descs.filter (fireCond errors)) :=
  notify_ok_filter reg raiseError descs files errors hreg

/-- C3 (witness). -/
theorem notify_selects_fireable_wit :
    notify systemHandlers false
        [NotifyDesc.mk "CSV" (some true) none, NotifyDesc.mk "EMAIL" none (some true)]
        [] [] =
      .ok [NotifyDesc.mk "CSV" (some true) none] := by
  have h := notify_selects_fireable systemHandlers false
    [NotifyDesc.mk "CSV" (some true) none, NotifyDesc.mk "EMAIL" none (some true)]
    [] [] (by decide)
  rw [h]
  decide

/-- C4: in `Process.run` with a notifications section: a non-empty
gather-phase error list skips generation entirely and fires run-level
notifications once with that error list (selecting the `on_failure`
descriptors); an empty combined error list fires `on_success` descriptors
carrying the produced files; a non-empty generate-phase error list fires
`on_failure` descriptors carrying the full error list. -/
theorem run_notification_flow {γ : Type} (reg : Registry γ) (descs : List NotifyDesc)
    (gatherErrors genErrors files : List String)
    (hreg : ∀ n ∈ descs, reg.contains n.handler = true) :
    (gatherErrors ≠ [] →
        (processRunCalls gatherErrors genErrors files true).1 = false
        ∧ (processRunCalls gatherErrors genErrors files true).2 = [([], gatherErrors)]
        ∧ notify reg false descs [] gatherErrors =
            .ok (descs.filter (fun n => n.onFailure.getD false)))
    ∧ (gatherErrors = [] → genErrors = [] →
        (processRunCalls gatherErrors genErrors files true).1 = true
        ∧ (processRunCalls gatherErrors genErrors files true).2 = [(files, [])]
        ∧ notify reg false descs files [] =
            .ok (descs.filter (fun n => n.onSuccess.getD false)))
    ∧ (gatherErrors = [] → genErrors ≠ [] →
        (processRunCalls gatherErrors genErrors files true).2 =
          [(files, genErrors), ([], genErrors)]
        ∧ notify reg false descs files genErrors =
            .ok (descs.filter (fun n => n.onFailure.getD false))) := by
  refine ⟨?_, ?_, ?_⟩
  · intro hg
    have hne : gatherErrors.isEmpty = false := by
      cases gatherErrors with
      | nil => exact absurd rfl hg
      | cons e es => rfl
    refine ⟨by simp [processRunCalls, hne], by simp [processRunCalls, hne], ?_⟩
    rw [notify_ok_filter reg false descs [] gatherErrors hreg]
    rw [List.filter_congr (fun n _ => fireCond_nonempty gatherErrors hg n)]
  · intro hg hgen
    subst hg hgen
    refine ⟨by simp [processRunCalls], by simp [processRunCalls], ?_⟩
    rw [notify_ok_filter reg false descs files [] hreg]
    rw [List.filter_congr (fun n _ => fireCond_empty n)]
  · intro hg hgen
    subst hg
    have hne : genErrors.isEmpty = false := by
      cases genErrors with
      | nil => exact absurd rfl hgen
      | cons e es => rfl
    refine ⟨by simp [processRunCalls, hne], ?_⟩
    rw [notify_ok_filter reg false descs files genErrors hreg]
    rw [List.filter_congr (fun n _ => fireCond_nonempty genErrors hgen n)]

/-- C4 (witness). -/
theorem run_notification_flow_wit :
    (processRunCalls ["boom"] [] ["out.csv"] true).1 = false
    ∧ (processRunCalls ["boom"] [] ["out.csv"] true).2 = [([], ["boom"])]
    ∧ notify systemHandlers false [NotifyDesc.mk "EMAIL" none (some true)] [] ["boom"] =
        .ok ([NotifyDesc.mk "EMAIL" none (some true)].filter
          (fun n => n.onFailure.getD false)) :=
  (run_notification_flow systemHandlers [NotifyDesc.mk "EMAIL" none (some true)]
    ["boom"] [] ["out.csv"] (by decide)).1 (by decide)

/-- C5: `merge_results` over K per-job result sequences is exactly their
concatenation in the given (declared-source) order, so its size is the sum
of the input sizes; the merge is a pure function of that ordered list, so
job completion order cannot affect it. -/
theorem merge_results_concat {α : Type} (resultLists : List (List α)) :
    mergeResults (resultLists.map some) = .ok resultLists.flatten
    ∧ resultLists.flatten.length = (resultLists.map List.length).sum := by
  constructor
  · induction resultLists with
    | nil => rfl
    | cons r rs ih => simp [mergeResults, ih, Except.map]
  · simp [List.length_flatten]

/-- C6: calling `wait` when `is_complete` already holds at elapsed time 0
returns immediately: the final elapsed time is 0 and no sleep is
performed. -/
theorem wait_returns_immediately_when_complete (jobs : List (String × Nat))
    (timeout : Nat) (h : isComplete jobs 0 = true) :
    poolWait jobs timeout = (0, 0) := by
  simp [poolWait, waitLoop, h]

/-- C6 (witness): a pool with zero submitted jobs is already complete and
`wait` performs no sleep. -/
theorem wait_returns_immediately_when_complete_wit :
    isComplete [] 0 = true ∧ poolWait [] 60 = (0, 0) :=
  ⟨by decide, wait_returns_immediately_when_complete [] 60 (by decide)⟩

/-- C7: the pool's process count is the source count when that count is
strictly between 0 and the ceiling, and the ceiling otherwise, where the
ceiling is `2 × cpu_count` with no override and the override value with
one; and the pool timeout defaults to 60 when `process_timeout` is absent. -/
theorem pool_sizing_and_timeout (numSources cpuCount : Nat) (override : Option Nat) :
    ((0 < numSources ∧
        numSources < (match override with | none => cpuCount * 2 | some p => p)) →
      poolProcesses numSources cpuCount override = numSources)
    ∧ (¬ (0 < numSources ∧
        numSources < (match override with | none => cpuCount * 2 | some p => p)) →
      poolProcesses numSources cpuCount override =
        (match override with | none => cpuCount * 2 | some p => p))
    ∧ poolTimeout none = 60 := by
  refine ⟨?_, ?_, rfl⟩
  · intro h
    simp only [poolProcesses, if_pos h]
  · intro h
    simp only [poolProcesses, if_neg h]

/-- C7 (witness). -/
theorem pool_sizing_and_timeout_wit :
    poolProcesses 3 4 none = 3
    ∧ poolProcesses 20 4 none = 8
    ∧ poolProcesses 20 4 (some 5) = 5
    ∧ poolTimeout none = 60 :=
  ⟨(pool_sizing_and_timeout 3 4 none).1 (by decide),
   (pool_sizing_and_timeout 20 4 none).2.1 (by decide),
   (pool_sizing_and_timeout 20 4 (some 5)).2.1 (by decide),
   (pool_sizing_and_timeout 0 0 none).2.2⟩

/-- C8: registering any case variant of a name already present in the
registry raises `RegistrationError`, and after a successful registration,
lookup of any case variant of the registered name returns the registered
reference. -/
theorem registry_case_insensitive {α : Type} (r : Registry α) (name variant : String)
    (ref : α) (hvar : upper variant = upper name) :
    (r.contains name = true → r.register variant ref = .error .registrationError)
    ∧ (∀ r', r.register name ref = .ok r' → r'.getitem variant = .ok ref) := by
  constructor
  · intro hc
    unfold Registry.contains at hc
    unfold Registry.register
    rw [hvar, if_pos hc]
  · intro r' hr
    unfold Registry.register at hr
    by_cases hf : (r.registry.find? (fun e => e.1 = upper name)).isSome = true
    · rw [if_pos hf] at hr
      cases hr
    · rw [if_neg hf] at hr
      simp only [Except.ok.injEq] at hr
      subst hr
      have hnone : r.registry.find? (fun e => (e.1 = upper name : Bool)) = none := by
        cases hfind : r.registry.find? (fun e => (e.1 = upper name : Bool)) with
        | none => rfl
        | some e => rw [hfind] at hf; simp at hf
      unfold Registry.getitem
      rw [hvar, List.find?_append, hnone]
      simp

/-- C8 (witness). -/
theorem registry_case_insensitive_wit :
    Registry.register systemHandlers "cSv" "Other" = .error .registrationError
    ∧ Registry.getitem (Registry.mk ([] : List String) [("FOO", (7 : Nat))]) "fOo" =
        .ok 7 :=
  ⟨(registry_case_insensitive systemHandlers "Csv" "cSv" "Other" (by decide)).1
      (by decide),
   (registry_case_insensitive (Registry.mk ([] : List String) ([] : List (String × Nat)))
      "Foo" "fOo" 7 (by decide)).2
      (Registry.mk ([] : List String) [("FOO", (7 : Nat))]) (by decide)⟩

/-- C9: the claim (and the function's own docstring) say `unregister`
raises `RegistrationError` both for protected required names and for
absent names; the code raises `RegistrationError` for protected names but
a bare `KeyError` (from `del` on a missing dict key) for absent names,
while removal succeeds otherwise. -/
theorem unregister_missing_raises_keyerror :
    Registry.unregister systemHandlers "MISSING" = .error RegErr.keyError
    ∧ Registry.unregister systemHandlers "csv" = .error RegErr.registrationError
    ∧ Registry.unregister
        (Registry.mk ["CSV", "JSON", "EMAIL"]
          [("CSV", "CsvFile"), ("JSON", "JsonFile"), ("EMAIL", "EmailHandler"),
           ("FOO", "FooHandler")]) "foo" =
      .ok (Registry.mk ["CSV", "JSON", "EMAIL"]
          [("CSV", "CsvFile"), ("JSON", "JsonFile"), ("EMAIL", "EmailHandler")]) := by
  decide

/-- C10: if any element of the results sequence handed to `merge_results`
is `None` — exactly what `default_worker` returns when the source's fetch
raises, and what `get_results` passes through as a clean result with no
error entry — then the merge raises `TypeError` instead of returning a
run result. -/
theorem merge_results_none_typeerror {α : Type} (rs : List (Option (List α)))
    (h : none ∈ rs) :
    mergeResults rs = .error "TypeError"
    ∧ defaultWorker (.error "fetch raised" : Except String (List α)) = none
    ∧ getResults [("src", Retrieval.ok (none : Option (List α)))] = ([none], []) := by
  refine ⟨?_, rfl, rfl⟩
  induction rs with
  | nil => cases h
  | cons r rest ih =>
    cases r with
    | none => rfl
    | some v =>
      have hrest : none ∈ rest := by
        rcases List.mem_cons.mp h with hh | hh
        · cases hh
        · exact hh
      simp [mergeResults, ih hrest, Except.map]

/-- C10 (witness). -/
theorem merge_results_none_typeerror_wit :
    mergeResults [some [1, 2], (none : Option (List Nat))] = .error "TypeError"
    ∧ defaultWorker (.error "fetch raised" : Except String (List Nat)) = none
    ∧ getResults [("src", Retrieval.ok (none : Option (List Nat)))] = ([none], []) :=
  merge_results_none_typeerror [some [1, 2], none] (by decide)

end Arbiter
